import Mathlib

set_option maxRecDepth 8000

namespace XdmTemplate

/-! # Data model

Shallow embedding of the content-tree resolver of
`src/modules/yaml/yaml_handler.py` together with the pieces of the data
model it relies on (`src/modules/node/data_node.py`, and the external
collaborators `file_node.py` / `errors.py`, which are modelled from the
specification because their source is not part of the repository
snapshot). -/

/-- Model of a parsed YAML value as produced by `yaml.safe_load` for the
documents this resolver consumes. -/
inductive YVal where
  | s (v : String)
  | n (v : Int)
  | b (v : Bool)
  | null
  | list (items : List YVal)
  | map (entries : List (String × YVal))

/-- A YAML document body: the key/value mapping returned by the loader.
Keys of parsed mappings are strings. -/
abbrev Ydict := List (String × YVal)

/-- Python `k in data` / `data[k]` for a dict with string keys, where `k` is
the (arbitrarily typed) preserved key from the configuration: a Python
`==` between a string key and a non-string value is `False`. Returns the
first binding's value when present. -/
def pyGet (d : Ydict) (k : YVal) : Option YVal :=
  match d with
  | [] => none
  | (k1, v) :: rest =>
    (match k with
     | .s ks => if k1 = ks then some v else pyGet rest k
     | _ => pyGet rest k)

/-- Python truthiness of a parsed YAML value (`if not pattern: continue` in
`_data_node_create`): empty string, zero, `False`, `None`, empty list and
empty mapping are falsy. -/
def yFalsy : YVal → Bool
  | .s v => v = ""
  | .n v => v = 0
  | .b v => v = false
  | .null => true
  | .list items => items.isEmpty
  | .map entries => entries.isEmpty

/-- Python `children_path == ""` (equality with the empty string is true
exactly for the string value `""`). -/
def isEmptyStr : YVal → Bool
  | .s v => v = ""
  | _ => false

/-! ## Filesystem tree provider

Modelled from the spec: the provider (`file_node.py`, not part of the
snapshot) scans a root and yields a tree of directory/file nodes where
file nodes know their parent directory and their root-relative path, and
a directory supports a glob-pattern lookup scoped to its own subtree
(`find_nodes_by_path`).  We represent the built tree as the flat, ordered
list of its file records; a directory is identified by its path segments
relative to the root, and subtree scoping is path-prefix scoping.  Match
order is the provider's enumeration order, i.e. list order. -/

/-- Modelled from the spec: one file node of the built filesystem tree.
`dir` is the containing directory's segment path relative to the root
(`[]` = directly under the root); `content` is the parsed document
(`none` models a file whose read/parse fails, surfaced by the loader as a
load error). -/
structure FileRec where
  dir : List String
  name : String
  content : Option Ydict

/-- Modelled from the spec: glob matching of a file name against a pattern
with the `*` wildcard (the only wildcard the documents of this repository
use).  Fuel-indexed so the definition is structural; `globMatch` below
always supplies sufficient fuel. -/
def globGo : Nat → List Char → List Char → Bool
  | 0, p, t => p.isEmpty && t.isEmpty
  | fuel + 1, p, t =>
    match p, t with
    | [], [] => true
    | [], _ :: _ => false
    | pc :: ps, [] => pc = '*' && globGo fuel ps []
    | pc :: ps, c :: cs =>
      if pc = '*' then globGo fuel ps (c :: cs) || globGo fuel ('*' :: ps) cs
      else pc = c && globGo fuel ps cs

/-- Glob match with sufficient fuel. -/
def globMatch (pat name : String) : Bool :=
  globGo (pat.length + name.length) pat.data name.data

/-- Root-relative path of a file record, as the provider's
`get_absolute_path` renders it (leading separator, used by the handler as
`file_tree.name + file_node.get_absolute_path()`). -/
def relPathOf (f : FileRec) : String :=
  "/" ++ String.intercalate "/" (f.dir ++ [f.name])

/-- A file node located by the provider: its name, parsed content,
root-relative path and parent directory (`none` models a file node
without a parent directory node). -/
structure Located where
  name : String
  content : Option Ydict
  relPath : String
  parent : Option (List String)

/-- Modelled from the spec: `find_nodes_by_path` of a directory node —
all file nodes in that directory's subtree whose name matches the glob
pattern, in provider (list) order.  The resolver keeps only file nodes of
the result, so directory results are omitted from the model. -/
def findNodes (fs : List FileRec) (dirPath : List String) (pat : String) :
    List Located :=
  (fs.filter fun f => dirPath.isPrefixOf f.dir && globMatch pat f.name).map
    fun f => ⟨f.name, f.content, relPathOf f, some f.dir⟩

/-- Modelled from the spec: a pattern taken from a children-reference list
is a glob string; a non-string entry matches no file node. -/
def findNodesY (fs : List FileRec) (dirPath : List String) (pat : YVal) :
    List Located :=
  match pat with
  | .s p => findNodes fs dirPath p
  | _ => []

/-! ## Error taxonomy

Modelled from the spec (`errors.py` is not part of the snapshot): four
error kinds — configuration, path, load and structure errors — where a
structure error additionally carries its specific `error_type`
(`missing_key` / `max_depth_exceeded`), every error exposes an
`error_type`, and errors carry a message and the offending path. -/

/-- Modelled from the spec: the `YamlErrorType` discriminator carried by
every error (`e.error_type` is read when re-wrapping child failures). -/
inductive YamlErrorType where
  | config
  | path
  | load
  | missingKey
  | maxDepthExceeded
deriving DecidableEq, Repr

/-- Modelled from the spec: the `YamlError` hierarchy
(`YamlConfigError`, `YamlPathError`, `YamlLoadError`,
`YamlStructureError`). -/
inductive YamlError where
  | configError (msg : String)
  | pathError (msg : String) (path : String)
  | loadError (msg : String) (path : String)
  | structureError (etype : YamlErrorType) (msg : String) (path : String)
deriving DecidableEq, Repr

/-- `e.error_type` of an error. -/
def YamlError.error_type : YamlError → YamlErrorType
  | .configError _ => .config
  | .pathError _ _ => .path
  | .loadError _ _ => .load
  | .structureError t _ _ => t

/-- Modelled from the spec: `str(e)` — the message rendering used when a
child failure is wrapped with context. -/
def YamlError.str : YamlError → String
  | .configError m => m
  | .pathError m _ => m
  | .loadError m _ => m
  | .structureError _ m _ => m

/-- Modelled from the spec: rendering of a preserved key (a string in
every run this repository performs) inside an error message. -/
def yvalStr : YVal → String
  | .s v => v
  | _ => "<non-string key>"

/-- Modelled from the spec: `YamlStructureError.missing_key(key, path)` —
a structure error naming the missing reserved key and the document's
path. -/
def YamlStructureError.missing_key (key : YVal) (path : String) : YamlError :=
  .structureError .missingKey
    ("Missing required key " ++ yvalStr key ++ " in " ++ path) path

/-- Modelled from the spec: `YamlStructureError.max_depth_exceeded(max_depth,
name)` — a structure error naming the configured bound and the offending
node. -/
def YamlStructureError.max_depth_exceeded (maxDepth : Nat) (name : String) :
    YamlError :=
  .structureError .maxDepthExceeded
    ("Maximum depth " ++ toString maxDepth ++ " exceeded at node " ++ name) name

/-! ## Configuration (`YamlConfig`, yaml_handler.py lines 17-59) -/

/-- The `YamlConfig` dataclass.  Fields keep the loosely-typed values the
options mapping supplies (Python performs no coercion); `max_depth`
defaults to 1000. -/
structure YamlConfig where
  root_path : String
  file_pattern : YVal
  encoding : YVal := .s "utf-8"
  preserved_template_key : YVal := .s "TEMPLATE_PATH"
  preserved_children_key : YVal := .s "CHILDREN_PATH"
  max_depth : Nat := 1000

/-- Python `"root_path" in config` for the options mapping (string keys). -/
def optHasKey (opts : List (String × YVal)) (k : String) : Bool :=
  opts.any fun kv => kv.1 = k

/-- Python `config.get(k, d)` on the options mapping. -/
def optGetD (opts : List (String × YVal)) (k : String) (d : YVal) : YVal :=
  match opts.find? (fun kv => kv.1 = k) with
  | some kv => kv.2
  | none => d

/-- Python `config[k]` on the options mapping (used only after a presence
check). -/
def optGet (opts : List (String × YVal)) (k : String) : YVal :=
  optGetD opts k .null

/-- Modelled from the spec: `str(Path(v))` for the root-path option (the
runs this repository performs pass a path string). -/
def pathOfY : YVal → String
  | .s v => v
  | _ => "<non-string path>"

/-- `YamlConfig.validate` (yaml_handler.py lines 29-59): fails when
`root_path` is missing or does not exist on the filesystem (`fsExists` is
the filesystem oracle `Path.exists`), otherwise builds the configuration
from the recognized options.  `max_depth` is not read from the options
mapping. -/
def YamlConfig.validate (fsExists : String → Bool)
    (config : List (String × YVal)) : Except YamlError YamlConfig :=
  if ¬ optHasKey config "root_path" then
    .error (.configError "Missing required field 'root_path'")
  else
    let root_path := pathOfY (optGet config "root_path")
    if ¬ fsExists root_path then
      .error (.pathError ("root_path " ++ root_path ++ " does not exist")
        root_path)
    else
      .ok { root_path := root_path
            file_pattern := optGetD config "file_pattern" (.list [.s "*.yaml"])
            encoding := optGetD config "encoding" (.s "utf-8")
            preserved_template_key :=
              optGetD config "preserved_template_key" (.s "TEMPLATE_PATH")
            preserved_children_key :=
              optGetD config "preserved_children_key" (.s "CHILDREN_PATH") }

/-! ## Content nodes (`DataNode`, data_node.py) -/

/-- A resolved content node: the originating file node's name, the parsed
payload, and the child content nodes attached during resolution. -/
inductive DataNode where
  | mk (name : String) (data : Ydict) (children : List DataNode)

/-- The node's name (its identity within one resolution run). -/
def DataNode.name : DataNode → String
  | .mk n _ _ => n

/-- The node's payload. -/
def DataNode.data : DataNode → Ydict
  | .mk _ d _ => d

/-- The node's attached children. -/
def DataNode.children : DataNode → List DataNode
  | .mk _ _ c => c

/-- `data_node._node.add_child(child_node._node)`: attach a resolved child
to the current node (children are kept in attachment order). -/
def DataNode.add_child : DataNode → DataNode → DataNode
  | .mk n d cs, c => .mk n d (cs ++ [c])

/-! ## The recursive resolver (`YamlDataTreeHandler`, yaml_handler.py)

`_data_node_create` recurses on children found by pattern lookup; the
recursion is not structural on the filesystem tree (two documents may
reference each other), so the embedding is indexed by the fuel
`max_depth + 1 - depth`.  The guard `depth > max_depth` of the source
holds exactly when that fuel is zero, so the fuel-zero case of the
embedding is the source's depth check, and `data_node_create` below
instantiates the fuel accordingly. -/

/-- Re-wrap of a failed child resolution (yaml_handler.py lines 155-161 and
179-185): the child's error type is kept, the message gains the
`Error processing child <name>:` context, and the path becomes the failed
child's absolute path. -/
def wrapChildError (m : Located) (e : YamlError) : YamlError :=
  .structureError e.error_type
    ("Error processing child " ++ m.name ++ ": " ++ e.str) m.relPath

/-- The inner loop over the file nodes matching one pattern
(yaml_handler.py lines 146-161 / 170-185), parameterized by the
resolution of one child (`create1`, the recursive call at `depth + 1`).
On success the child is attached and appended to the run-wide list: the
source guards the append with `child_node not in self.data_tree_list`,
but `DataNode` defines no `__eq__`, so Python `in` compares object
identity and the freshly constructed `child_node` is never an element —
the guard is always true and the append is unconditional.  On failure the
error is re-wrapped with child context and propagated. -/
def procMatches
    (create1 : Located → List DataNode → Except YamlError (DataNode × List DataNode)) :
    List Located → DataNode → List DataNode →
    Except YamlError (DataNode × List DataNode)
  | [], dn, acc => .ok (dn, acc)
  | m :: ms, dn, acc =>
    match create1 m acc with
    | .ok (child, acc1) =>
      procMatches create1 ms (dn.add_child child) (acc1 ++ [child])
    | .error e => .error (wrapChildError m e)

/-- The loop over a children-reference list (yaml_handler.py lines
137-161): falsy patterns are skipped, the lookup only happens when the
file node has a parent directory, and each pattern's matches are resolved
in order. -/
def procPatterns
    (create1 : Located → List DataNode → Except YamlError (DataNode × List DataNode))
    (fs : List FileRec) (parent : Option (List String)) :
    List YVal → DataNode → List DataNode →
    Except YamlError (DataNode × List DataNode)
  | [], dn, acc => .ok (dn, acc)
  | p :: ps, dn, acc =>
    if yFalsy p then procPatterns create1 fs parent ps dn acc
    else
      match parent with
      | none => procPatterns create1 fs parent ps dn acc
      | some dirPath =>
        match procMatches create1 (findNodesY fs dirPath p) dn acc with
        | .ok (dn1, acc1) => procPatterns create1 fs parent ps dn1 acc1
        | .error e => .error e

/-- `_data_node_create` (yaml_handler.py lines 113-188), fuel-indexed:
fuel `0` is the `depth > max_depth` guard; otherwise the document is
loaded (a `none` content is a read/parse failure, an empty mapping is the
falsy-`data` branch raising `Failed to load data`), both preserved keys
are required, the children-reference is normalized (`"" → []`) and
dispatched on its runtime type — a list of patterns, a non-empty pattern
string, or anything else, which flows past both `isinstance` branches and
yields the node with no children. -/
def createGo (cfg : YamlConfig) (fs : List FileRec) :
    Nat → Located → List DataNode → Except YamlError (DataNode × List DataNode)
  | 0 => fun loc _acc =>
    .error (YamlStructureError.max_depth_exceeded cfg.max_depth loc.name)
  | fuel + 1 => fun loc acc =>
    let fsPath := cfg.root_path ++ loc.relPath
    match loc.content with
    | none => .error (.loadError "failed to read or parse file" fsPath)
    | some d =>
      if d.isEmpty then .error (.loadError "Failed to load data" fsPath)
      else
        match pyGet d cfg.preserved_template_key,
              pyGet d cfg.preserved_children_key with
        | none, _ =>
          .error (YamlStructureError.missing_key cfg.preserved_template_key fsPath)
        | some _, none =>
          .error (YamlStructureError.missing_key cfg.preserved_children_key fsPath)
        | some _, some cp0 =>
          let dn := DataNode.mk loc.name d []
          let cp := if isEmptyStr cp0 then YVal.list [] else cp0
          match cp with
          | .list ps =>
            procPatterns (createGo cfg fs fuel) fs loc.parent ps dn acc
          | .s p =>
            if p = "" then .ok (dn, acc)
            else
              match loc.parent with
              | some dirPath =>
                procMatches (createGo cfg fs fuel) (findNodes fs dirPath p) dn acc
              | none => .ok (dn, acc)
          | _ => .ok (dn, acc)

/-- `_data_node_create(file_node, depth)`: the fuel `max_depth + 1 - depth`
is zero exactly when `depth > max_depth`. -/
def data_node_create (cfg : YamlConfig) (fs : List FileRec) (loc : Located)
    (depth : Nat) (acc : List DataNode) :
    Except YamlError (DataNode × List DataNode) :=
  createGo cfg fs (cfg.max_depth + 1 - depth) loc acc

/-- The `Located` view of a top-level file node (a direct file child of the
root directory node): its parent is the root directory itself. -/
def topLoc (f : FileRec) : Located :=
  ⟨f.name, f.content, relPathOf f, some f.dir⟩

/-- The loop of `data_tree_list_init` over the root's file children
(yaml_handler.py lines 201-208): each top-level file is resolved at depth
0 and appended to the flattened list; the inner `except` re-raises
unchanged, so errors propagate as they are. -/
def initLoop (cfg : YamlConfig) (fs : List FileRec) :
    List FileRec → List DataNode → Except YamlError (List DataNode)
  | [], acc => .ok acc
  | f :: rest, acc =>
    match data_node_create cfg fs (topLoc f) 0 acc with
    | .ok (dn, acc1) => initLoop cfg fs rest (acc1 ++ [dn])
    | .error e => .error e

/-- `data_tree_list_init` (yaml_handler.py lines 190-213).  The run-wide
state (`_node_paths`, `data_tree_list`) is reset, the root's direct file
children (the records with an empty `dir`) are resolved in order, and on
any `YamlError` the state is cleared again before the error propagates.
The result is the raised-or-returned outcome together with the final
state `(_node_paths, data_tree_list)`; `_node_paths` is declared but
never populated by the source. -/
def data_tree_list_init (cfg : YamlConfig) (fs : List FileRec) :
    Except YamlError Unit × (List String × List DataNode) :=
  let tops := fs.filter fun f => f.dir.isEmpty
  if tops.isEmpty then (.ok (), ([], []))
  else
    match initLoop cfg fs tops [] with
    | .ok acc => (.ok (), ([], acc))
    | .error e => (.error e, ([], []))

/-- The handler state after a successful `YamlDataTreeHandler.__init__`. -/
structure YamlDataTreeHandler where
  config : YamlConfig
  file_tree : List FileRec
  node_paths : List String
  data_tree_list : List DataNode

/-- `YamlDataTreeHandler.__init__` (yaml_handler.py lines 79-91):
configuration validation runs first and aborts construction on failure
(no tree building or resolution is attempted); otherwise the file tree is
built by the provider (`buildTree`, modelled from the spec as the
external enumerator) and the data tree list is initialized. -/
def handlerInit (fsExists : String → Bool)
    (buildTree : String → YVal → List FileRec)
    (options : List (String × YVal)) : Except YamlError YamlDataTreeHandler :=
  match YamlConfig.validate fsExists options with
  | .error e => .error e
  | .ok cfg =>
    let fs := buildTree cfg.root_path cfg.file_pattern
    match data_tree_list_init cfg fs with
    | (.ok _, st) => .ok ⟨cfg, fs, st.1, st.2⟩
    | (.error e, _) => .error e

/-! ## Invariant predicates over resolution results -/

/-- Both preserved keys are present in a payload. -/
def hasBothKeys (cfg : YamlConfig) (d : Ydict) : Bool :=
  (pyGet d cfg.preserved_template_key).isSome &&
  (pyGet d cfg.preserved_children_key).isSome

mutual

/-- Every node of this content tree carries both preserved keys. -/
def goodTree (cfg : YamlConfig) : DataNode → Bool
  | .mk _ d cs => hasBothKeys cfg d && goodForest cfg cs

/-- Every node of every content tree of this forest carries both preserved
keys. -/
def goodForest (cfg : YamlConfig) : List DataNode → Bool
  | [] => true
  | c :: cs => goodTree cfg c && goodForest cfg cs

end

/-- The flattened list is children-first: scanning left to right, each
node's attached children already occur among the previously listed
nodes. -/
def postOrdAux : List DataNode → List DataNode → Prop
  | _, [] => True
  | seen, dn :: rest =>
    (∀ c ∈ dn.children, c ∈ seen) ∧ postOrdAux (seen ++ [dn]) rest

/-- Children-first (post-) order of a flattened list: every listed node's
children occur at strictly earlier positions. -/
def postOrdered (l : List DataNode) : Prop :=
  postOrdAux [] l

/-- The run-wide flattened list only ever grows by appending. -/
def accExtends (acc acc' : List DataNode) : Prop :=
  ∃ Δ, acc' = acc ++ Δ

/-! ## A chain of nested children (the depth-bound scenario)

A flat directory of `N + 1` documents `a.y, aa.y, aaa.y, ...` where each
document's children-reference is exactly the next document's name and the
last one has an empty children-reference: resolving the first document
recurses through the whole chain. -/

/-- The name of the `i`-th chain document: `i + 1` copies of `a` followed
by `.y` (names of distinct indices differ in length). -/
def chName (i : Nat) : String :=
  ⟨List.replicate (i + 1) 'a' ++ ['.', 'y']⟩

/-- The payload of the `i`-th chain document of a chain ending at `N`. -/
def chDoc (N i : Nat) : Ydict :=
  [("TEMPLATE_PATH", .s "t.j2"),
   ("CHILDREN_PATH", if i = N then .s "" else .s (chName (i + 1)))]

/-- The chain filesystem: all `N + 1` documents directly under the root. -/
def chainFs (N : Nat) : List FileRec :=
  (List.range (N + 1)).map fun i => ⟨[], chName i, some (chDoc N i)⟩

/-- A configuration whose depth bound is `m` (all other options default). -/
def chainCfg (m : Nat) : YamlConfig :=
  { root_path := "/r", file_pattern := .list [.s "*"], max_depth := m }

/-- The located view of the `i`-th chain document. -/
def chLoc (N i : Nat) : Located :=
  ⟨chName i, some (chDoc N i), "/" ++ chName i, some []⟩

/-- The inductive contract of one child resolution step: the accumulator
only grows, the returned node's children are all in the returned
accumulator, children-first order of the accumulator is preserved, and
key-completeness of the accumulator extends to the result. -/
def CreateProp (cfg : YamlConfig)
    (create1 : Located → List DataNode → Except YamlError (DataNode × List DataNode)) :
    Prop :=
  ∀ m acc dn acc', create1 m acc = .ok (dn, acc') →
    accExtends acc acc' ∧ (∀ c ∈ dn.children, c ∈ acc') ∧
    (postOrdered acc → postOrdered acc') ∧
    (goodForest cfg acc = true →
      goodTree cfg dn = true ∧ goodForest cfg acc' = true)

/-! ## Concrete runs used by counterexamples and witnesses -/

/-- A configuration with all defaults under root `/root`. -/
def cfgStd : YamlConfig :=
  { root_path := "/root", file_pattern := .list [.s "*.yaml"] }

/-- Two sibling documents where `a.yaml` references `b.yaml` as its child:
`b.yaml` is both a top-level file and a child of `a.yaml`. -/
def fsDup : List FileRec :=
  [⟨[], "a.yaml", some [("TEMPLATE_PATH", .s "t.j2"), ("CHILDREN_PATH", .s "b.yaml")]⟩,
   ⟨[], "b.yaml", some [("TEMPLATE_PATH", .s "t.j2"), ("CHILDREN_PATH", .s "")]⟩]

/-- Scenario B of the spec: `index.yaml` whose children pattern matches the
sibling files `page-1.yaml` and `page-2.yaml`, each with an empty
children-reference. -/
def fsPages : List FileRec :=
  [⟨[], "index.yaml", some [("TEMPLATE_PATH", .s "i.j2"), ("CHILDREN_PATH", .s "page-*.yaml")]⟩,
   ⟨[], "page-1.yaml", some [("TEMPLATE_PATH", .s "p.j2"), ("CHILDREN_PATH", .s "")]⟩,
   ⟨[], "page-2.yaml", some [("TEMPLATE_PATH", .s "p.j2"), ("CHILDREN_PATH", .s "")]⟩]

/-- Scenario C of the spec: a document whose children-reference is the
number `42` (neither a string nor a list). -/
def fsNum : List FileRec :=
  [⟨[], "x.yaml", some [("TEMPLATE_PATH", .s "t.j2"), ("CHILDREN_PATH", .n 42)]⟩]

/-- A document missing the template key. -/
def fsNoTemplate : List FileRec :=
  [⟨[], "y.yaml", some [("OTHER", .s "v")]⟩]

/-! ## Helper lemmas -/

/-- With no parent directory node, the pattern loop performs no lookup and
leaves node and accumulator untouched. -/
lemma procPatterns_parent_none (create1) (fs : List FileRec) :
    ∀ ps dn acc, procPatterns create1 fs none ps dn acc = .ok (dn, acc) := by
  intro ps
  induction ps with
  | nil => intro dn acc; rfl
  | cons p ps ih =>
    intro dn acc
    by_cases hp : yFalsy p = true <;> simp [procPatterns, hp, ih]

/-- Any error leaving the matching-file loop is a child failure re-wrapped
with the failed child's context. -/
lemma procMatches_error_shape (create1) :
    ∀ ms dn acc e, procMatches create1 ms dn acc = .error e →
      ∃ m e1, m ∈ ms ∧ e = wrapChildError m e1 := by
  intro ms
  induction ms with
  | nil => intro dn acc e h; simp [procMatches] at h
  | cons m ms ih =>
    intro dn acc e h
    simp only [procMatches] at h
    cases hc : create1 m acc with
    | ok pr =>
      simp only [hc] at h
      obtain ⟨m1, e1, hm, he⟩ := ih _ _ _ h
      exact ⟨m1, e1, List.mem_cons_of_mem _ hm, he⟩
    | error e0 =>
      simp only [hc] at h
      exact ⟨m, e0, List.mem_cons_self _ _, (Except.error.inj h).symm⟩

/-- Any error leaving the pattern loop is a child failure re-wrapped with
the failed child's context. -/
lemma procPatterns_error_shape (create1) (fs : List FileRec) (parent) :
    ∀ ps dn acc e, procPatterns create1 fs parent ps dn acc = .error e →
      ∃ m e1, e = wrapChildError m e1 := by
  intro ps
  induction ps with
  | nil => intro dn acc e h; simp [procPatterns] at h
  | cons p ps ih =>
    intro dn acc e h
    simp only [procPatterns] at h
    cases hp : yFalsy p with
    | true =>
      simp only [hp, if_true] at h
      exact ih _ _ _ h
    | false =>
      simp only [hp, Bool.false_eq_true, if_false] at h
      cases parent with
      | none => exact ih _ _ _ h
      | some dirPath =>
        cases hm : procMatches create1 (findNodesY fs dirPath p) dn acc with
        | ok pr =>
          simp only [hm] at h
          exact ih _ _ _ h
        | error e0 =>
          simp only [hm] at h
          obtain ⟨m1, e1, _, he⟩ := procMatches_error_shape create1 _ _ _ _ hm
          exact ⟨m1, e1, (Except.error.inj h).symm.trans he⟩

lemma accExtends_refl (acc : List DataNode) : accExtends acc acc :=
  ⟨[], (List.append_nil acc).symm⟩

lemma accExtends_trans {a b c : List DataNode}
    (h1 : accExtends a b) (h2 : accExtends b c) : accExtends a c := by
  obtain ⟨d1, rfl⟩ := h1
  obtain ⟨d2, rfl⟩ := h2
  exact ⟨d1 ++ d2, List.append_assoc a d1 d2⟩

lemma accExtends_snoc (acc : List DataNode) (dn : DataNode) :
    accExtends acc (acc ++ [dn]) :=
  ⟨[dn], rfl⟩

lemma mem_of_extends {a b : List DataNode} {x : DataNode}
    (h : accExtends a b) (hx : x ∈ a) : x ∈ b := by
  obtain ⟨d, rfl⟩ := h
  exact List.mem_append_left d hx

lemma goodForest_append (cfg : YamlConfig) :
    ∀ l1 l2 : List DataNode,
      goodForest cfg (l1 ++ l2) = (goodForest cfg l1 && goodForest cfg l2) := by
  intro l1 l2
  induction l1 with
  | nil => simp [goodForest]
  | cons c cs ih => simp [goodForest, ih, Bool.and_assoc]

lemma goodTree_add_child (cfg : YamlConfig) (dn c : DataNode) :
    goodTree cfg (dn.add_child c) =
      (goodTree cfg dn && goodTree cfg c) := by
  cases dn with
  | mk n d cs =>
    simp [DataNode.add_child, goodTree, goodForest_append, goodForest,
      Bool.and_assoc]

lemma postOrdAux_append_one (dn : DataNode) :
    ∀ (l seen : List DataNode),
      postOrdAux seen (l ++ [dn]) ↔
        (postOrdAux seen l ∧ ∀ c ∈ dn.children, c ∈ seen ++ l) := by
  intro l
  induction l with
  | nil => intro seen; simp [postOrdAux]
  | cons x l ih =>
    intro seen
    rw [List.cons_append]
    show postOrdAux seen (x :: (l ++ [dn])) ↔ _
    simp only [postOrdAux]
    rw [ih (seen ++ [x])]
    constructor
    · rintro ⟨h1, h2, h3⟩
      refine ⟨⟨h1, h2⟩, ?_⟩
      intro c hc
      have hmem := h3 c hc
      simpa [List.append_assoc] using hmem
    · rintro ⟨⟨h1, h2⟩, h3⟩
      refine ⟨h1, h2, ?_⟩
      intro c hc
      have hmem := h3 c hc
      simpa [List.append_assoc] using hmem

lemma postOrdered_nil : postOrdered [] := trivial

lemma postOrdered_snoc (l : List DataNode) (dn : DataNode) :
    postOrdered (l ++ [dn]) ↔
      (postOrdered l ∧ ∀ c ∈ dn.children, c ∈ l) := by
  unfold postOrdered
  rw [postOrdAux_append_one]
  simp

/-- The matching-file loop preserves the resolution invariants: assuming
every child resolution satisfies `CreateProp`, a successful pass extends
the accumulator, keeps every attached child in the final accumulator,
preserves children-first order and preserves key-completeness. -/
lemma procMatches_master (cfg : YamlConfig) (create1)
    (Hc : CreateProp cfg create1) :
    ∀ ms dn acc dn' acc',
      procMatches create1 ms dn acc = .ok (dn', acc') →
      (∀ c ∈ dn.children, c ∈ acc) →
      accExtends acc acc' ∧ (∀ c ∈ dn'.children, c ∈ acc') ∧
      (postOrdered acc → postOrdered acc') ∧
      (goodForest cfg acc = true → goodTree cfg dn = true →
        goodTree cfg dn' = true ∧ goodForest cfg acc' = true) := by
  intro ms
  induction ms with
  | nil =>
    intro dn acc dn' acc' h hch
    simp only [procMatches, Except.ok.injEq, Prod.mk.injEq] at h
    obtain ⟨rfl, rfl⟩ := h
    exact ⟨accExtends_refl acc, hch, fun hp => hp, fun _ hg => ⟨hg, by assumption⟩⟩
  | cons m ms ih =>
    intro dn acc dn' acc' h hch
    simp only [procMatches] at h
    cases hc1 : create1 m acc with
    | error e => simp [hc1] at h
    | ok pr =>
      obtain ⟨child, acc1⟩ := pr
      simp only [hc1] at h
      obtain ⟨hext1, hch1, hpost1, hgood1⟩ := Hc m acc child acc1 hc1
      have hch2 : ∀ c ∈ (dn.add_child child).children, c ∈ acc1 ++ [child] := by
        cases dn with
        | mk n d cs =>
          intro c hcmem
          simp only [DataNode.add_child, DataNode.children,
            List.mem_append, List.mem_singleton] at hcmem
          cases hcmem with
          | inl hmem =>
            exact List.mem_append_left _
              (mem_of_extends hext1 (hch c hmem))
          | inr heq =>
            subst heq
            exact List.mem_append_right _ (List.mem_singleton_self c)
      obtain ⟨hext2, hch3, hpost2, hgood2⟩ :=
        ih (dn.add_child child) (acc1 ++ [child]) dn' acc' h hch2
      refine ⟨accExtends_trans (accExtends_trans hext1 (accExtends_snoc _ _)) hext2,
        hch3, ?_, ?_⟩
      · intro hpost
        exact hpost2 ((postOrdered_snoc acc1 child).mpr ⟨hpost1 hpost, hch1⟩)
      · intro hgacc hgdn
        obtain ⟨hgchild, hgacc1⟩ := hgood1 hgacc
        have hgacc2 : goodForest cfg (acc1 ++ [child]) = true := by
          rw [goodForest_append]
          simp [goodForest, hgacc1, hgchild]
        have hgdn2 : goodTree cfg (dn.add_child child) = true := by
          rw [goodTree_add_child]
          simp [hgdn, hgchild]
        exact hgood2 hgacc2 hgdn2

/-- The pattern loop preserves the resolution invariants. -/
lemma procPatterns_master (cfg : YamlConfig) (create1) (fs : List FileRec)
    (parent : Option (List String)) (Hc : CreateProp cfg create1) :
    ∀ ps dn acc dn' acc',
      procPatterns create1 fs parent ps dn acc = .ok (dn', acc') →
      (∀ c ∈ dn.children, c ∈ acc) →
      accExtends acc acc' ∧ (∀ c ∈ dn'.children, c ∈ acc') ∧
      (postOrdered acc → postOrdered acc') ∧
      (goodForest cfg acc = true → goodTree cfg dn = true →
        goodTree cfg dn' = true ∧ goodForest cfg acc' = true) := by
  intro ps
  induction ps with
  | nil =>
    intro dn acc dn' acc' h hch
    simp only [procPatterns, Except.ok.injEq, Prod.mk.injEq] at h
    obtain ⟨rfl, rfl⟩ := h
    exact ⟨accExtends_refl acc, hch, fun hp => hp, fun _ hg => ⟨hg, by assumption⟩⟩
  | cons p ps ih =>
    intro dn acc dn' acc' h hch
    simp only [procPatterns] at h
    cases hp : yFalsy p with
    | true =>
      simp only [hp, if_true] at h
      exact ih dn acc dn' acc' h hch
    | false =>
      simp only [hp, Bool.false_eq_true, if_false] at h
      cases parent with
      | none => exact ih dn acc dn' acc' h hch
      | some dirPath =>
        cases hm : procMatches create1 (findNodesY fs dirPath p) dn acc with
        | error e => simp [hm] at h
        | ok pr =>
          obtain ⟨dn1, acc1⟩ := pr
          simp only [hm] at h
          obtain ⟨hext1, hch1, hpost1, hgood1⟩ :=
            procMatches_master cfg create1 Hc _ dn acc dn1 acc1 hm hch
          obtain ⟨hext2, hch2, hpost2, hgood2⟩ :=
            ih dn1 acc1 dn' acc' h hch1
          refine ⟨accExtends_trans hext1 hext2, hch2, ?_, ?_⟩
          · intro hpost
            exact hpost2 (hpost1 hpost)
          · intro hgacc hgdn
            obtain ⟨hgdn1, hgacc1⟩ := hgood1 hgacc hgdn
            exact hgood2 hgacc1 hgdn1

/-- `_data_node_create` satisfies the resolution invariants at every
fuel. -/
lemma createGo_master (cfg : YamlConfig) (fs : List FileRec) :
    ∀ fuel, CreateProp cfg (createGo cfg fs fuel) := by
  intro fuel
  induction fuel with
  | zero =>
    intro m acc dn acc' h
    simp [createGo] at h
  | succ k ih =>
    intro m acc dn acc' h
    simp only [createGo] at h
    cases hcon : m.content with
    | none => simp [hcon] at h
    | some d =>
      simp only [hcon] at h
      cases hne : d.isEmpty with
      | true => simp [hne] at h
      | false =>
        simp only [hne, Bool.false_eq_true, if_false] at h
        cases hT : pyGet d cfg.preserved_template_key with
        | none => simp [hT] at h
        | some tv =>
          cases hC : pyGet d cfg.preserved_children_key with
          | none => simp [hT, hC] at h
          | some cv =>
            simp only [hT, hC] at h
            have hgdn0 : goodTree cfg (DataNode.mk m.name d []) = true := by
              simp [goodTree, goodForest, hasBothKeys, hT, hC]
            have hch0 : ∀ c ∈ (DataNode.mk m.name d []).children, c ∈ acc := by
              simp [DataNode.children]
            split at h
            · obtain ⟨hext, hch, hpost, hgood⟩ :=
                procPatterns_master cfg _ fs m.parent ih _ _ acc dn acc' h hch0
              exact ⟨hext, hch, hpost,
                fun hgacc => hgood hgacc hgdn0⟩
            · split at h
              · simp only [Except.ok.injEq, Prod.mk.injEq] at h
                obtain ⟨rfl, rfl⟩ := h
                exact ⟨accExtends_refl acc, hch0, fun hp => hp,
                  fun hgacc => ⟨hgdn0, hgacc⟩⟩
              · cases hpar : m.parent with
                | some dirPath =>
                  rw [hpar] at h
                  obtain ⟨hext, hch, hpost, hgood⟩ :=
                    procMatches_master cfg _ ih _ _ acc dn acc' h hch0
                  exact ⟨hext, hch, hpost,
                    fun hgacc => hgood hgacc hgdn0⟩
                | none =>
                  rw [hpar] at h
                  simp only [Except.ok.injEq, Prod.mk.injEq] at h
                  obtain ⟨rfl, rfl⟩ := h
                  exact ⟨accExtends_refl acc, hch0, fun hp => hp,
                    fun hgacc => ⟨hgdn0, hgacc⟩⟩
            · simp only [Except.ok.injEq, Prod.mk.injEq] at h
              obtain ⟨rfl, rfl⟩ := h
              exact ⟨accExtends_refl acc, hch0, fun hp => hp,
                fun hgacc => ⟨hgdn0, hgacc⟩⟩

/-- The top-level loop preserves the resolution invariants. -/
lemma initLoop_master (cfg : YamlConfig) (fs : List FileRec) :
    ∀ tops acc l, initLoop cfg fs tops acc = .ok l →
      accExtends acc l ∧ (postOrdered acc → postOrdered l) ∧
      (goodForest cfg acc = true → goodForest cfg l = true) := by
  intro tops
  induction tops with
  | nil =>
    intro acc l h
    simp only [initLoop, Except.ok.injEq] at h
    subst h
    exact ⟨accExtends_refl _, fun hp => hp, fun hg => hg⟩
  | cons f rest ih =>
    intro acc l h
    simp only [initLoop] at h
    cases hc : data_node_create cfg fs (topLoc f) 0 acc with
    | error e => simp [hc] at h
    | ok pr =>
      obtain ⟨dn, acc1⟩ := pr
      simp only [hc] at h
      unfold data_node_create at hc
      obtain ⟨hext1, hch1, hpost1, hgood1⟩ :=
        createGo_master cfg fs _ (topLoc f) acc dn acc1 hc
      obtain ⟨hext2, hpost2, hgood2⟩ := ih (acc1 ++ [dn]) l h
      refine ⟨accExtends_trans (accExtends_trans hext1 (accExtends_snoc _ _)) hext2,
        ?_, ?_⟩
      · intro hpost
        exact hpost2 ((postOrdered_snoc acc1 dn).mpr ⟨hpost1 hpost, hch1⟩)
      · intro hgacc
        obtain ⟨hgdn, hgacc1⟩ := hgood1 hgacc
        apply hgood2
        rw [goodForest_append]
        simp [goodForest, hgacc1, hgdn]

/-! ## Claim C4 -/

/-- C4 (counterexample): supplying `max_depth = 5` in the options mapping
does not make the validated configuration's maximum depth 5 —
`YamlConfig.validate` never reads that key. -/
theorem C4_counterexample :
    ¬ ∃ cfg, YamlConfig.validate (fun _ => true)
        [("root_path", .s "/r"), ("max_depth", .n 5)] = .ok cfg ∧
      cfg.max_depth = 5 := by
  rintro ⟨cfg, h, h5⟩
  have heval : YamlConfig.validate (fun _ => true)
      [("root_path", .s "/r"), ("max_depth", .n 5)] =
      .ok { root_path := "/r", file_pattern := .list [.s "*.yaml"] } := rfl
  rw [heval] at h
  rw [← Except.ok.inj h] at h5
  exact absurd h5 (by decide)

/-- C4 (amended): `max_depth` is not a recognized option of
`YamlConfig.validate`; every successfully validated configuration has the
default maximum recursion depth 1000, whether or not the options mapping
supplies a `max_depth` value. -/
theorem C4_max_depth_always_default (fsExists : String → Bool)
    (opts : List (String × YVal)) (cfg : YamlConfig)
    (h : YamlConfig.validate fsExists opts = .ok cfg) :
    cfg.max_depth = 1000 := by
  unfold YamlConfig.validate at h
  split at h
  · exact absurd h (by simp)
  · simp only [] at h
    split at h
    · exact absurd h (by simp)
    · rw [← Except.ok.inj h]

/-- C4 (witness): the amended claim at a concrete options mapping. -/
theorem C4_witness :
    ({ root_path := "/r", file_pattern := .list [.s "*.yaml"] } :
      YamlConfig).max_depth = 1000 :=
  C4_max_depth_always_default (fun _ => true) [("root_path", .s "/r")] _ rfl

/-! ## Claim C9 -/

/-- C9: configuration validation fails fast inside handler construction —
a missing `root_path` key yields the configuration error, and an existing
key whose path does not exist on the filesystem yields the path error; in
both cases construction stops with that error and no resolution output is
produced. -/
theorem C9_validation_fails_fast :
    (∀ (fsExists : String → Bool) (buildTree : String → YVal → List FileRec)
        (opts : List (String × YVal)),
      optHasKey opts "root_path" = false →
      handlerInit fsExists buildTree opts =
        .error (.configError "Missing required field 'root_path'")) ∧
    (∀ (fsExists : String → Bool) (buildTree : String → YVal → List FileRec)
        (opts : List (String × YVal)) (s : String),
      optHasKey opts "root_path" = true →
      optGet opts "root_path" = .s s →
      fsExists s = false →
      handlerInit fsExists buildTree opts =
        .error (.pathError ("root_path " ++ s ++ " does not exist") s)) := by
  constructor
  · intro fsE bt opts h
    unfold handlerInit YamlConfig.validate
    simp [h]
  · intro fsE bt opts s h hg hf
    unfold handlerInit YamlConfig.validate
    simp [h, hg, pathOfY, hf]

/-- C9 (witness): both failure modes at concrete options mappings. -/
theorem C9_witness :
    handlerInit (fun _ => true) (fun _ _ => []) [] =
      .error (.configError "Missing required field 'root_path'") ∧
    handlerInit (fun _ => false) (fun _ _ => [])
        [("root_path", .s "/nope")] =
      .error (.pathError ("root_path " ++ "/nope" ++ " does not exist") "/nope") :=
  ⟨C9_validation_fails_fast.1 (fun _ => true) (fun _ _ => []) [] rfl,
   C9_validation_fails_fast.2 (fun _ => false) (fun _ _ => [])
     [("root_path", .s "/nope")] "/nope" rfl rfl rfl⟩

/-! ## Claim C7 -/

/-- C7: the top-level driver is atomic on failure — whenever
`data_tree_list_init` ends in an error, the run-wide state (the
path-tracking list and the flattened list) has been cleared before the
error propagates. -/
theorem C7_state_cleared_on_error (cfg : YamlConfig) (fs : List FileRec)
    (e : YamlError) (h : (data_tree_list_init cfg fs).1 = .error e) :
    (data_tree_list_init cfg fs).2 = ([], []) := by
  unfold data_tree_list_init at h ⊢
  cases ht : (List.filter (fun f => f.dir.isEmpty) fs).isEmpty with
  | true => simp [ht] at h
  | false =>
    simp only [ht, Bool.false_eq_true, if_false] at h ⊢
    cases hl : initLoop cfg fs (List.filter (fun f => f.dir.isEmpty) fs) [] with
    | ok acc => simp [hl] at h
    | error e0 => simp [hl]

/-- C7 (witness): a concrete failing run (a document missing its template
key) leaves the cleared state. -/
theorem C7_witness : (data_tree_list_init cfgStd fsNoTemplate).2 = ([], []) :=
  C7_state_cleared_on_error cfgStd fsNoTemplate
    (.structureError .missingKey
      "Missing required key TEMPLATE_PATH in /root/y.yaml" "/root/y.yaml") rfl

/-! ## Claim C10 -/

/-- C10: a file node with no parent directory node resolves to a content
node with zero children — no pattern lookup happens and no error is
raised — whatever the (well-formed) document's children-reference is. -/
theorem C10_no_parent_no_lookup (cfg : YamlConfig) (fs : List FileRec)
    (loc : Located) (depth : Nat) (acc : List DataNode) (d : Ydict)
    (tv cv : YVal)
    (hpar : loc.parent = none)
    (hd : depth ≤ cfg.max_depth)
    (hc : loc.content = some d)
    (hne : d.isEmpty = false)
    (ht : pyGet d cfg.preserved_template_key = some tv)
    (hk : pyGet d cfg.preserved_children_key = some cv) :
    data_node_create cfg fs loc depth acc =
      .ok (DataNode.mk loc.name d [], acc) := by
  unfold data_node_create
  obtain ⟨k, hk2⟩ : ∃ k, cfg.max_depth + 1 - depth = k + 1 :=
    ⟨cfg.max_depth - depth, by omega⟩
  rw [hk2]
  simp only [createGo, hc, hne, ht, hk, hpar, Bool.false_eq_true, if_false]
  cases cv with
  | s v =>
    by_cases hv : v = "" <;>
      simp [isEmptyStr, hv, procPatterns_parent_none, hpar]
  | list items => simp [isEmptyStr, procPatterns_parent_none, hpar]
  | n v => simp [isEmptyStr]
  | b v => simp [isEmptyStr]
  | null => simp [isEmptyStr]
  | map entries => simp [isEmptyStr]

/-- C10 (witness): a parentless file node with a non-empty children
pattern resolves to a childless node without error. -/
theorem C10_witness :
    data_node_create cfgStd []
      ⟨"r.yaml", some [("TEMPLATE_PATH", .s "t"), ("CHILDREN_PATH", .s "p-*.yaml")],
       "/r.yaml", none⟩ 0 [] =
      .ok (DataNode.mk "r.yaml"
        [("TEMPLATE_PATH", .s "t"), ("CHILDREN_PATH", .s "p-*.yaml")] [], []) :=
  C10_no_parent_no_lookup cfgStd []
    ⟨"r.yaml", some [("TEMPLATE_PATH", .s "t"), ("CHILDREN_PATH", .s "p-*.yaml")],
     "/r.yaml", none⟩ 0 []
    [("TEMPLATE_PATH", .s "t"), ("CHILDREN_PATH", .s "p-*.yaml")]
    (.s "t") (.s "p-*.yaml") rfl (by decide) rfl rfl rfl rfl

/-! ## Claim C2 -/

/-- C2 (counterexample): a document whose children-reference is the number
`42` resolves successfully with zero children — no structure error is
raised, contrary to the claim. -/
theorem C2_counterexample :
    (data_tree_list_init cfgStd fsNum).1 = .ok () ∧
    ((data_tree_list_init cfgStd fsNum).2.2.map
      fun dn => dn.children.length) = [0] :=
  ⟨rfl, rfl⟩

/-- C2 (amended): a document whose children-reference value is neither a
string nor a list (for example the number 42) is accepted: its resolution
succeeds and yields a content node with zero children (the value flows
past both `isinstance` branches). -/
theorem C2_nonstring_nonlist_children_accepted (cfg : YamlConfig)
    (fs : List FileRec) (loc : Located) (depth : Nat) (acc : List DataNode)
    (d : Ydict) (tv cv : YVal)
    (hd : depth ≤ cfg.max_depth)
    (hc : loc.content = some d)
    (hne : d.isEmpty = false)
    (ht : pyGet d cfg.preserved_template_key = some tv)
    (hk : pyGet d cfg.preserved_children_key = some cv)
    (hs : ∀ v, cv ≠ .s v)
    (hl : ∀ l, cv ≠ .list l) :
    data_node_create cfg fs loc depth acc =
      .ok (DataNode.mk loc.name d [], acc) := by
  unfold data_node_create
  obtain ⟨k, hk2⟩ : ∃ k, cfg.max_depth + 1 - depth = k + 1 :=
    ⟨cfg.max_depth - depth, by omega⟩
  rw [hk2]
  simp only [createGo, hc, hne, ht, hk, Bool.false_eq_true, if_false]
  cases cv with
  | s v => exact absurd rfl (hs v)
  | list items => exact absurd rfl (hl items)
  | n v => simp [isEmptyStr]
  | b v => simp [isEmptyStr]
  | null => simp [isEmptyStr]
  | map entries => simp [isEmptyStr]

/-- C2 (witness): the amended claim at the concrete `CHILDREN_PATH: 42`
document. -/
theorem C2_witness :
    data_node_create cfgStd fsNum
      ⟨"x.yaml", some [("TEMPLATE_PATH", .s "t.j2"), ("CHILDREN_PATH", .n 42)],
       "/x.yaml", some []⟩ 0 [] =
      .ok (DataNode.mk "x.yaml"
        [("TEMPLATE_PATH", .s "t.j2"), ("CHILDREN_PATH", .n 42)] [], []) :=
  C2_nonstring_nonlist_children_accepted cfgStd fsNum
    ⟨"x.yaml", some [("TEMPLATE_PATH", .s "t.j2"), ("CHILDREN_PATH", .n 42)],
     "/x.yaml", some []⟩ 0 []
    [("TEMPLATE_PATH", .s "t.j2"), ("CHILDREN_PATH", .n 42)]
    (.s "t.j2") (.n 42) (by decide) rfl rfl rfl rfl
    (fun v h => YVal.noConfusion h) (fun l h => YVal.noConfusion h)

/-! ## Claim C8 -/

/-- C8: a failure while resolving a child is re-wrapped at the enclosing
frame with context identifying the failed child (its name and path) and
preserving the error's kind — the error is not swallowed and no node is
attached — and every error leaving the child loop has that wrapped
shape. -/
theorem C8_child_errors_wrapped :
    (∀ (cfg : YamlConfig) (fs : List FileRec) (fuel : Nat) (m : Located)
        (ms : List Located) (dn : DataNode) (acc : List DataNode)
        (e : YamlError),
      createGo cfg fs fuel m acc = .error e →
      procMatches (createGo cfg fs fuel) (m :: ms) dn acc =
        .error (.structureError e.error_type
          ("Error processing child " ++ m.name ++ ": " ++ e.str) m.relPath)) ∧
    (∀ create1 ms dn acc e, procMatches create1 ms dn acc = .error e →
      ∃ m e1, m ∈ ms ∧ e = wrapChildError m e1) := by
  constructor
  · intro cfg fs fuel m ms dn acc e h
    simp [procMatches, h, wrapChildError]
  · exact procMatches_error_shape

/-- C8 (witness): a concrete unreadable child's load error surfaces
re-wrapped with the child's name and path. -/
theorem C8_witness :
    procMatches (createGo cfgStd [] 1)
      [⟨"z.yaml", none, "/z.yaml", some []⟩] (DataNode.mk "p" [] []) [] =
      .error (.structureError .load
        ("Error processing child z.yaml: failed to read or parse file")
        "/z.yaml") :=
  C8_child_errors_wrapped.1 cfgStd [] 1 ⟨"z.yaml", none, "/z.yaml", some []⟩ []
    (DataNode.mk "p" [] []) []
    (.loadError "failed to read or parse file" ("/root" ++ "/z.yaml")) rfl

/-! ## Claim C5 -/

/-- C5: a document missing the template key (resp. missing the children
key) fails its resolution with a structure error naming that key and the
document's path; consequently, the flattened list of every completed run
consists of nodes whose payloads carry both keys (key-completeness of the
result). -/
theorem C5_missing_key_fails (cfg0 : YamlConfig) :
    (∀ (cfg : YamlConfig) (fs : List FileRec) (loc : Located) (depth : Nat)
        (acc : List DataNode) (d : Ydict),
      depth ≤ cfg.max_depth → loc.content = some d → d.isEmpty = false →
      pyGet d cfg.preserved_template_key = none →
      data_node_create cfg fs loc depth acc =
        .error (YamlStructureError.missing_key cfg.preserved_template_key
          (cfg.root_path ++ loc.relPath))) ∧
    (∀ (cfg : YamlConfig) (fs : List FileRec) (loc : Located) (depth : Nat)
        (acc : List DataNode) (d : Ydict) (tv : YVal),
      depth ≤ cfg.max_depth → loc.content = some d → d.isEmpty = false →
      pyGet d cfg.preserved_template_key = some tv →
      pyGet d cfg.preserved_children_key = none →
      data_node_create cfg fs loc depth acc =
        .error (YamlStructureError.missing_key cfg.preserved_children_key
          (cfg.root_path ++ loc.relPath))) ∧
    (∀ fs : List FileRec,
      (data_tree_list_init cfg0 fs).1 = .ok () →
      goodForest cfg0 (data_tree_list_init cfg0 fs).2.2 = true) := by
  refine ⟨?_, ?_, ?_⟩
  · intro cfg fs loc depth acc d hd hc hne hT
    unfold data_node_create
    obtain ⟨k, hk2⟩ : ∃ k, cfg.max_depth + 1 - depth = k + 1 :=
      ⟨cfg.max_depth - depth, by omega⟩
    rw [hk2]
    simp [createGo, hc, hne, hT]
  · intro cfg fs loc depth acc d tv hd hc hne hT hC
    unfold data_node_create
    obtain ⟨k, hk2⟩ : ∃ k, cfg.max_depth + 1 - depth = k + 1 :=
      ⟨cfg.max_depth - depth, by omega⟩
    rw [hk2]
    simp [createGo, hc, hne, hT, hC]
  · intro fs _h
    unfold data_tree_list_init
    cases ht : (List.filter (fun f => f.dir.isEmpty) fs).isEmpty with
    | true => simp [ht, goodForest]
    | false =>
      simp only [ht, Bool.false_eq_true, if_false]
      cases hl : initLoop cfg0 fs (List.filter (fun f => f.dir.isEmpty) fs) [] with
      | ok acc =>
        simpa using (initLoop_master cfg0 fs _ [] acc hl).2.2 rfl
      | error e => simp [goodForest]

/-- C5 (witness): both missing-key failures and the key-completeness
post-condition at concrete runs. -/
theorem C5_witness :
    data_node_create cfgStd fsNoTemplate
      ⟨"y.yaml", some [("OTHER", .s "v")], "/y.yaml", some []⟩ 0 [] =
      .error (YamlStructureError.missing_key (.s "TEMPLATE_PATH")
        ("/root" ++ "/y.yaml")) ∧
    data_node_create cfgStd []
      ⟨"w.yaml", some [("TEMPLATE_PATH", .s "t")], "/w.yaml", some []⟩ 0 [] =
      .error (YamlStructureError.missing_key (.s "CHILDREN_PATH")
        ("/root" ++ "/w.yaml")) ∧
    goodForest cfgStd (data_tree_list_init cfgStd fsDup).2.2 = true :=
  ⟨(C5_missing_key_fails cfgStd).1 cfgStd fsNoTemplate
      ⟨"y.yaml", some [("OTHER", .s "v")], "/y.yaml", some []⟩ 0 []
      [("OTHER", .s "v")] (by decide) rfl rfl rfl,
   (C5_missing_key_fails cfgStd).2.1 cfgStd []
      ⟨"w.yaml", some [("TEMPLATE_PATH", .s "t")], "/w.yaml", some []⟩ 0 []
      [("TEMPLATE_PATH", .s "t")] (.s "t") (by decide) rfl rfl rfl rfl,
   (C5_missing_key_fails cfgStd).2.2 fsDup rfl⟩

/-! ## Claim C3 -/

/-- C3 (counterexample): in the spec's scenario B — `index.yaml` whose
pattern matches sibling files `page-1.yaml`, `page-2.yaml` — the run
succeeds but the flattened list is not `[index, page-1, page-2]`: the
parent is appended after its children, and the sibling files are resolved
again as top-level roots. -/
theorem C3_counterexample :
    (data_tree_list_init cfgStd fsPages).1 = .ok () ∧
    ((data_tree_list_init cfgStd fsPages).2.2.map DataNode.name) =
      ["page-1.yaml", "page-2.yaml", "index.yaml",
       "page-1.yaml", "page-2.yaml"] ∧
    ((data_tree_list_init cfgStd fsPages).2.2.map DataNode.name) ≠
      ["index.yaml", "page-1.yaml", "page-2.yaml"] :=
  ⟨rfl, rfl, by decide⟩

/-- C3 (amended): the flattened list is in children-first (post-order)
order — scanning it left to right, every node's attached children already
occur earlier — and in scenario B the list is
`[page-1, page-2, index, page-1, page-2]` (each page appears once as
index's child and once as a top-level root). -/
theorem C3_children_first_order :
    (∀ (cfg : YamlConfig) (fs : List FileRec),
      (data_tree_list_init cfg fs).1 = .ok () →
      postOrdered (data_tree_list_init cfg fs).2.2) ∧
    ((data_tree_list_init cfgStd fsPages).2.2.map DataNode.name) =
      ["page-1.yaml", "page-2.yaml", "index.yaml",
       "page-1.yaml", "page-2.yaml"] := by
  constructor
  · intro cfg fs _h
    unfold data_tree_list_init
    cases ht : (List.filter (fun f => f.dir.isEmpty) fs).isEmpty with
    | true => simpa [ht] using postOrdered_nil
    | false =>
      simp only [ht, Bool.false_eq_true, if_false]
      cases hl : initLoop cfg fs (List.filter (fun f => f.dir.isEmpty) fs) [] with
      | ok acc =>
        simpa using (initLoop_master cfg fs _ [] acc hl).2.1 postOrdered_nil
      | error e => simpa using postOrdered_nil
  · rfl

/-- C3 (witness): the children-first order at a concrete successful run. -/
theorem C3_witness : postOrdered (data_tree_list_init cfgStd fsDup).2.2 :=
  C3_children_first_order.1 cfgStd fsDup rfl

/-- A wrapped child-error message never coincides with a direct
depth-exceeded message (their first characters differ). -/
lemma wrap_msg_ne_depth_msg (a b : String) :
    ("Error processing child " ++ a) ≠ ("Maximum depth " ++ b) := by
  intro h
  have h2 : ("Error processing child " ++ a).data =
      ("Maximum depth " ++ b).data := by rw [h]
  rw [String.data_append, String.data_append] at h2
  have e1 : "Error processing child ".data =
      'E' :: "rror processing child ".data := rfl
  have e2 : "Maximum depth ".data = 'M' :: "aximum depth ".data := rfl
  rw [e1, e2, List.cons_append, List.cons_append] at h2
  injection h2 with hc _
  exact absurd hc (by decide)

/-- The direct depth-exceeded error of a frame is never produced by any
other branch of that frame: other direct raises differ in constructor or
error type, and propagated child failures carry the wrapped message. -/
lemma createGo_depth_error_only_at_zero (cfg : YamlConfig)
    (fs : List FileRec) (k : Nat) (loc : Located) (acc : List DataNode) :
    createGo cfg fs (k + 1) loc acc ≠
      .error (YamlStructureError.max_depth_exceeded cfg.max_depth loc.name) := by
  intro h
  simp only [createGo] at h
  cases hcon : loc.content with
  | none =>
    rw [hcon] at h
    exact YamlError.noConfusion (Except.error.inj h)
  | some d =>
    rw [hcon] at h
    cases hne : d.isEmpty with
    | true =>
      simp only [hne, if_true] at h
      exact YamlError.noConfusion (Except.error.inj h)
    | false =>
      simp only [hne, Bool.false_eq_true, if_false] at h
      cases hT : pyGet d cfg.preserved_template_key with
      | none =>
        rw [hT] at h
        simp only [YamlStructureError.missing_key,
          YamlStructureError.max_depth_exceeded] at h
        have := Except.error.inj h
        injection this with ht _ _
        exact YamlErrorType.noConfusion ht
      | some tv =>
        cases hC : pyGet d cfg.preserved_children_key with
        | none =>
          rw [hT, hC] at h
          simp only [YamlStructureError.missing_key,
            YamlStructureError.max_depth_exceeded] at h
          have := Except.error.inj h
          injection this with ht _ _
          exact YamlErrorType.noConfusion ht
        | some cv =>
          rw [hT, hC] at h
          simp only [] at h
          have hwrapped : ∀ (m : Located) (e1 : YamlError),
              YamlStructureError.max_depth_exceeded cfg.max_depth loc.name ≠
                wrapChildError m e1 := by
            intro m e1 heq
            simp only [YamlStructureError.max_depth_exceeded,
              wrapChildError] at heq
            injection heq with _ hmsg _
            rw [String.append_assoc, String.append_assoc] at hmsg
            exact wrap_msg_ne_depth_msg _ _ hmsg.symm
          split at h
          · obtain ⟨m, e1, hre⟩ :=
              procPatterns_error_shape _ fs loc.parent _ _ _ _ h
            exact hwrapped m e1 hre
          · split at h
            · exact Except.noConfusion h
            · cases hpar : loc.parent with
              | some dirPath =>
                rw [hpar] at h
                obtain ⟨m, e1, _, hre⟩ :=
                  procMatches_error_shape _ _ _ _ _ h
                exact hwrapped m e1 hre
              | none =>
                rw [hpar] at h
                exact Except.noConfusion h
          · exact Except.noConfusion h

/-- A wildcard-free pattern glob-matches exactly itself. -/
lemma globGo_exact :
    ∀ (f : Nat) (p t : List Char), '*' ∉ p → p.length + t.length ≤ f →
      (globGo f p t = true ↔ p = t) := by
  intro f
  induction f with
  | zero =>
    intro p t hs hl
    have hp : p = [] := by
      cases p with
      | nil => rfl
      | cons a l => simp at hl
    have ht : t = [] := by
      cases t with
      | nil => rfl
      | cons a l => simp at hl
    subst hp; subst ht
    simp [globGo]
  | succ k ih =>
    intro p t hs hl
    cases p with
    | nil =>
      cases t with
      | nil => simp [globGo]
      | cons c cs => simp [globGo]
    | cons pc ps =>
      have hpc : ¬ pc = '*' := fun h => hs (h ▸ List.mem_cons_self pc ps)
      have hs' : '*' ∉ ps := fun h => hs (List.mem_cons_of_mem pc h)
      cases t with
      | nil =>
        simp [globGo, hpc]
      | cons c cs =>
        simp only [globGo, if_neg hpc, Bool.and_eq_true, decide_eq_true_eq]
        rw [ih ps cs hs' (by simp at hl ⊢; omega)]
        simp [List.cons.injEq]

lemma chName_data (i : Nat) :
    (chName i).data = List.replicate (i + 1) 'a' ++ ['.', 'y'] := rfl

lemma star_not_mem_chName (i : Nat) : '*' ∉ (chName i).data := by
  rw [chName_data]
  intro h
  rcases List.mem_append.mp h with h1 | h2
  · exact absurd (List.eq_of_mem_replicate h1) (by decide)
  · simp at h2

lemma chName_ne_empty (i : Nat) : chName i ≠ "" := by
  intro h
  have h2 := congrArg (fun s => s.data.length) h
  simp [chName_data] at h2

lemma chName_inj {a b : Nat} (h : chName a = chName b) : a = b := by
  have h2 := congrArg (fun s => s.data.length) h
  simp [chName_data] at h2
  omega

lemma globMatch_chName (x y : Nat) :
    globMatch (chName x) (chName y) = true ↔ x = y := by
  unfold globMatch
  have hfuel : (chName x).data.length + (chName y).data.length ≤
      (chName x).length + (chName y).length := Nat.le_of_eq rfl
  rw [globGo_exact ((chName x).length + (chName y).length) ((chName x).data)
    ((chName y).data) (star_not_mem_chName x) hfuel]
  constructor
  · intro h
    exact chName_inj (String.ext h)
  · intro h
    rw [h]

lemma range_filter_single : ∀ (n j : Nat), j < n →
    (List.range n).filter (fun i => decide (i = j)) = [j] := by
  intro n
  induction n with
  | zero => intro j h; omega
  | succ n ihn =>
    intro j h
    rw [List.range_succ, List.filter_append]
    by_cases hn : j = n
    · subst hn
      have hempty : (List.range j).filter (fun i => decide (i = j)) = [] := by
        rw [List.filter_eq_nil_iff]
        intro a ha
        rw [List.mem_range] at ha
        simp
        omega
      simp [hempty]
    · have hj : j < n := by omega
      rw [ihn j hj]
      have hlast : List.filter (fun i => decide (i = j)) [n] = [] := by
        simp
        omega
      rw [hlast, List.append_nil]

/-- The chain lookup: the pattern naming the `j`-th chain document matches
exactly that document among all chain files. -/
lemma chain_find (N j : Nat) (hj : j ≤ N) :
    findNodes (chainFs N) [] (chName j) = [chLoc N j] := by
  unfold findNodes chainFs
  rw [List.filter_map]
  have hcong : ∀ i ∈ List.range (N + 1),
      ((fun f : FileRec => [].isPrefixOf f.dir && globMatch (chName j) f.name) ∘
        fun i => (⟨[], chName i, some (chDoc N i)⟩ : FileRec)) i =
      (fun i => decide (i = j)) i := by
    intro i _
    simp only [Function.comp]
    show ([].isPrefixOf ([] : List String) && globMatch (chName j) (chName i)) = _
    rw [List.isPrefixOf]
    cases hgm : globMatch (chName j) (chName i) with
    | true =>
      have : j = i := (globMatch_chName j i).mp hgm
      simp [this]
    | false =>
      have : ¬ j = i := fun h => by
        rw [h] at hgm
        rw [(globMatch_chName i i).mpr rfl] at hgm
        exact Bool.noConfusion hgm
      simp [Bool.and_false]
      omega
  rw [List.filter_congr hcong, range_filter_single (N + 1) j (by omega)]
  rfl

/-- Resolving the `i`-th chain document (`gap = N - i` links to the end of
the chain) succeeds exactly when the fuel exceeds the remaining chain
length; otherwise it fails with a depth-exceeded structure error. -/
lemma chain_resolve (m N : Nat) :
    ∀ gap i fuel acc, i + gap = N →
      (gap < fuel → ∃ dn acc1,
        createGo (chainCfg m) (chainFs N) fuel (chLoc N i) acc =
          .ok (dn, acc1)) ∧
      (fuel ≤ gap → ∃ msg p,
        createGo (chainCfg m) (chainFs N) fuel (chLoc N i) acc =
          .error (.structureError .maxDepthExceeded msg p)) := by
  intro gap
  induction gap with
  | zero =>
    intro i fuel acc hiN
    have hi : i = N := by omega
    constructor
    · intro hf
      obtain ⟨k, rfl⟩ : ∃ k, fuel = k + 1 := ⟨fuel - 1, by omega⟩
      refine ⟨DataNode.mk (chName i) [("TEMPLATE_PATH", .s "t.j2"),
        ("CHILDREN_PATH", .s "")] [], acc, ?_⟩
      simp only [createGo, chLoc]
      simp [chDoc, chainCfg, pyGet, isEmptyStr, hi, procPatterns]
    · intro hf
      have hz : fuel = 0 := by omega
      subst hz
      exact ⟨_, _, rfl⟩
  | succ gap ih =>
    intro i fuel acc hiN
    have hne : ¬ i = N := by omega
    constructor
    · intro hf
      obtain ⟨k, rfl⟩ : ∃ k, fuel = k + 1 := ⟨fuel - 1, by omega⟩
      obtain ⟨dn1, acc1, hok⟩ := (ih (i + 1) k acc (by omega)).1 (by omega)
      refine ⟨(DataNode.mk (chName i) [("TEMPLATE_PATH", .s "t.j2"),
        ("CHILDREN_PATH", .s (chName (i + 1)))] []).add_child dn1,
        acc1 ++ [dn1], ?_⟩
      simp only [createGo, chLoc]
      simp [chDoc, chainCfg, pyGet, hne, isEmptyStr, chName_ne_empty,
        chain_find N (i + 1) (by omega), procMatches]
      simp only [chainCfg] at hok
      rw [hok]
    · intro hf
      cases fuel with
      | zero => exact ⟨_, _, rfl⟩
      | succ k =>
        obtain ⟨msg, p, herr⟩ := (ih (i + 1) k acc (by omega)).2 (by omega)
        refine ⟨"Error processing child " ++ chName (i + 1) ++ ": " ++ msg,
          "/" ++ chName (i + 1), ?_⟩
        simp only [createGo, chLoc]
        simp [chDoc, chainCfg, pyGet, hne, isEmptyStr, chName_ne_empty,
          chain_find N (i + 1) (by omega), procMatches, wrapChildError,
          YamlError.error_type, YamlError.str]
        simp only [chainCfg] at herr
        rw [herr]
        simp [wrapChildError, chLoc, YamlError.error_type, YamlError.str]

lemma chain_tops (N : Nat) :
    (chainFs N).filter (fun f => f.dir.isEmpty) = chainFs N := by
  rw [List.filter_eq_self]
  intro f hf
  unfold chainFs at hf
  rw [List.mem_map] at hf
  obtain ⟨i, _, rfl⟩ := hf
  rfl

lemma chain_toploc (N i : Nat) :
    topLoc (⟨[], chName i, some (chDoc N i)⟩ : FileRec) = chLoc N i := rfl

lemma chain_fs_nonempty (N : Nat) : (chainFs N).isEmpty = false := by
  unfold chainFs
  rw [List.range_succ_eq_map]
  rfl

/-- With maximum depth `N`, the whole chain run resolves: every top-level
file resolves at depth 0. -/
lemma chain_initLoop_ok (N : Nat) :
    ∀ l acc, (∀ f ∈ l, ∃ i, i ≤ N ∧
        f = (⟨[], chName i, some (chDoc N i)⟩ : FileRec)) →
      ∃ res, initLoop (chainCfg N) (chainFs N) l acc = .ok res := by
  intro l
  induction l with
  | nil => intro acc _; exact ⟨acc, rfl⟩
  | cons f rest ih =>
    intro acc hall
    obtain ⟨i, hiN, rfl⟩ := hall f (List.mem_cons_self f rest)
    obtain ⟨dn, acc1, hok⟩ :=
      (chain_resolve N N (N - i) i (N + 1) acc (by omega)).1 (by omega)
    obtain ⟨res, hres⟩ :=
      ih (acc1 ++ [dn]) (fun g hg => hall g (List.mem_cons_of_mem _ hg))
    refine ⟨res, ?_⟩
    simp only [initLoop, data_node_create, chain_toploc]
    have hfuel : (chainCfg N).max_depth + 1 - 0 = N + 1 := rfl
    rw [hfuel, hok]
    exact hres

/-- With maximum depth `N`, the chain run succeeds. -/
lemma chain_run_ok (N : Nat) :
    (data_tree_list_init (chainCfg N) (chainFs N)).1 = .ok () := by
  unfold data_tree_list_init
  rw [chain_tops]
  simp only [chain_fs_nonempty, Bool.false_eq_true, if_false]
  obtain ⟨res, hres⟩ := chain_initLoop_ok N (chainFs N) []
    (by
      intro f hf
      unfold chainFs at hf
      rw [List.mem_map] at hf
      obtain ⟨i, hi, rfl⟩ := hf
      rw [List.mem_range] at hi
      exact ⟨i, by omega, rfl⟩)
  rw [hres]

/-- With maximum depth `N - 1` (and `N ≥ 1`), the chain run fails with a
depth-exceeded structure error. -/
lemma chain_run_fail (N : Nat) (hN : 1 ≤ N) :
    ∃ e, (data_tree_list_init (chainCfg (N - 1)) (chainFs N)).1 = .error e ∧
      e.error_type = .maxDepthExceeded := by
  obtain ⟨msg, p, herr⟩ :=
    (chain_resolve (N - 1) N N 0 (N - 1 + 1) [] (by omega)).2 (by omega)
  refine ⟨.structureError .maxDepthExceeded msg p, ?_, rfl⟩
  unfold data_tree_list_init
  rw [chain_tops]
  simp only [chain_fs_nonempty, Bool.false_eq_true, if_false]
  have hcons : chainFs N = (⟨[], chName 0, some (chDoc N 0)⟩ : FileRec) ::
      ((List.range N).map fun i =>
        (⟨[], chName (i + 1), some (chDoc N (i + 1))⟩ : FileRec)) := by
    unfold chainFs
    rw [List.range_succ_eq_map, List.map_cons, List.map_map]
    rfl
  rw [hcons]
  rw [hcons] at herr
  simp only [initLoop, data_node_create, chain_toploc]
  have hfuel : (chainCfg (N - 1)).max_depth + 1 - 0 = N - 1 + 1 := rfl
  rw [hfuel, herr]

/-! ## Claim C6 -/

/-- C6: resolution of a file node at depth `d` fails with the
depth-exceeded error naming that node exactly when `d` exceeds the
configured maximum; and for a chain of `N` nested children (root at depth
0), `max_depth = N - 1` makes the run fail with a depth-exceeded error
while `max_depth = N` makes it succeed. -/
theorem C6_depth_bound :
    (∀ (cfg : YamlConfig) (fs : List FileRec) (loc : Located) (depth : Nat)
        (acc : List DataNode),
      data_node_create cfg fs loc depth acc =
          .error (YamlStructureError.max_depth_exceeded cfg.max_depth loc.name) ↔
        cfg.max_depth < depth) ∧
    (∀ N, 1 ≤ N →
      (∃ e, (data_tree_list_init (chainCfg (N - 1)) (chainFs N)).1 = .error e ∧
        e.error_type = .maxDepthExceeded) ∧
      (data_tree_list_init (chainCfg N) (chainFs N)).1 = .ok ()) := by
  constructor
  · intro cfg fs loc depth acc
    constructor
    · intro h
      by_contra hlt
      push_neg at hlt
      unfold data_node_create at h
      obtain ⟨k, hk⟩ : ∃ k, cfg.max_depth + 1 - depth = k + 1 :=
        ⟨cfg.max_depth - depth, by omega⟩
      rw [hk] at h
      exact createGo_depth_error_only_at_zero cfg fs k loc acc h
    · intro h
      unfold data_node_create
      have hz : cfg.max_depth + 1 - depth = 0 := by omega
      rw [hz]
      rfl
  · intro N hN
    exact ⟨chain_run_fail N hN, chain_run_ok N⟩

/-- C6 (witness): the depth check at a concrete over-deep call, and the
chain scenario at `N = 2`. -/
theorem C6_witness :
    data_node_create cfgStd [] ⟨"x.yaml", none, "/x.yaml", none⟩ 1001 [] =
      .error (YamlStructureError.max_depth_exceeded 1000 "x.yaml") ∧
    (∃ e, (data_tree_list_init (chainCfg 1) (chainFs 2)).1 = .error e ∧
      e.error_type = .maxDepthExceeded) ∧
    (data_tree_list_init (chainCfg 2) (chainFs 2)).1 = .ok () :=
  ⟨(C6_depth_bound.1 cfgStd [] ⟨"x.yaml", none, "/x.yaml", none⟩ 1001 []).mpr
      (by decide),
   (C6_depth_bound.2 2 (by decide)).1,
   (C6_depth_bound.2 2 (by decide)).2⟩

/-! ## Claim C1 -/

/-- C1 (code divergence): a successful run whose flattened list holds two
entries with the same identity — `b.yaml` is both a top-level file and
`a.yaml`'s child, and both resolutions are appended: the source's
membership guard compares object identity of a freshly constructed node
and never fires, and top-level appends are unguarded. -/
theorem C1_duplicate_identities :
    (data_tree_list_init cfgStd fsDup).1 = .ok () ∧
    ((data_tree_list_init cfgStd fsDup).2.2.map DataNode.name) =
      ["b.yaml", "a.yaml", "b.yaml"] ∧
    ¬ ((data_tree_list_init cfgStd fsDup).2.2.map DataNode.name).Nodup :=
  ⟨rfl, rfl, by decide⟩

end XdmTemplate
